import Mathlib

/-
  Verification development for the ballistic trajectory simulator
  (src/lab01/source.js).

  The JavaScript source is shallowly embedded:
  * JS floating-point numbers used in the physics integrator are modelled
    as real numbers; `Math.cos`, `Math.sin`, `Math.sqrt`, `Math.exp` and
    `Math.pow` become their Mathlib counterparts.
  * JS numbers that flow into the result store (parameter fields parsed
    from the inputs) are modelled as rationals so that the store and its
    fingerprint strings stay computable.
  * the module-level mutable variables (`trajectories`, `colorIdx`,
    `computedKeys`, `isRunning`) become an explicit `StoreState`, and the
    mutating functions `simulate` / `clearAll` become state transformers.
  * the `while` loop of `runPhysics` is modelled with explicit fuel:
    `fuel = maxSteps - steps`, so the guard `steps < maxSteps` of the
    source is exactly `fuel > 0`.
-/

/-- The atmosphere model selector of the `atmoModel` select element:
its JS values are the strings `const`, `const129` and `isa`. -/
inductive Atmo where
  | const
  | const129
  | isa
deriving DecidableEq

open Real in
/-- Embedding of `getAirDensity(altMeters, model)` (source.js lines 51-63):
constant models return `1.225` / `1.29`; the ISA branch clamps the altitude
to be nonnegative, uses the troposphere power law up to 11000 m and the
stratosphere exponential above. -/
noncomputable def getAirDensity (altMeters : ℝ) (model : Atmo) : ℝ :=
  match model with
  | .const => 1.225
  | .const129 => 1.29
  | .isa =>
    let alt := if altMeters < 0 then 0 else altMeters
    if alt ≤ 11000 then
      let T := 288.15 - 0.0065 * alt
      1.225 * (T / 288.15) ^ (4.2561 : ℝ)
    else
      0.3639 * Real.exp (-0.0001576 * (alt - 11000))

/-- Unfolded troposphere value of the ISA branch on `0 ≤ a ≤ 11000`. -/
theorem getAirDensity_isa_tropo {a : ℝ} (h0 : 0 ≤ a) (h1 : a ≤ 11000) :
    getAirDensity a .isa = 1.225 * ((288.15 - 0.0065 * a) / 288.15) ^ (4.2561 : ℝ) := by
  simp only [getAirDensity]
  rw [if_neg (show ¬ a < 0 by linarith), if_pos h1]

/-- Unfolded stratosphere value of the ISA branch on `11000 < a`. -/
theorem getAirDensity_isa_strato {a : ℝ} (h1 : 11000 < a) :
    getAirDensity a .isa = 0.3639 * Real.exp (-0.0001576 * (a - 11000)) := by
  simp only [getAirDensity]
  rw [if_neg (show ¬ a < 0 by linarith), if_neg (show ¬ a ≤ 11000 by linarith)]

/-- C9: under the ISA model the air density is strictly decreasing in
altitude, both on the troposphere range [0, 11000] and on the
stratosphere range (11000, ∞). -/
theorem isa_density_strict_anti :
    (∀ a b : ℝ, 0 ≤ a → a < b → b ≤ 11000 →
      getAirDensity b .isa < getAirDensity a .isa) ∧
    (∀ a b : ℝ, 11000 < a → a < b →
      getAirDensity b .isa < getAirDensity a .isa) := by
  constructor
  · intro a b ha hab hb
    rw [getAirDensity_isa_tropo ha (by linarith), getAirDensity_isa_tropo (by linarith) hb]
    have hTb : (0 : ℝ) ≤ (288.15 - 0.0065 * b) / 288.15 := by
      have : (0 : ℝ) ≤ 288.15 - 0.0065 * b := by linarith
      positivity
    have hlt : (288.15 - 0.0065 * b) / 288.15 < (288.15 - 0.0065 * a) / 288.15 := by
      apply div_lt_div_of_pos_right ?_ (by norm_num)
      linarith
    have := Real.rpow_lt_rpow hTb hlt (by norm_num : (0 : ℝ) < 4.2561)
    nlinarith [this]
  · intro a b ha hab
    rw [getAirDensity_isa_strato ha, getAirDensity_isa_strato (by linarith)]
    have hlt : -0.0001576 * (b - 11000) < -0.0001576 * (a - 11000) := by nlinarith
    have := Real.exp_lt_exp.2 hlt
    nlinarith [this]

/-- Witness for `isa_density_strict_anti` at altitudes 100 < 200
(troposphere) and 12000 < 13000 (stratosphere). -/
theorem isa_density_strict_anti_witness :
    getAirDensity 200 .isa < getAirDensity 100 .isa ∧
    getAirDensity 13000 .isa < getAirDensity 12000 .isa :=
  ⟨isa_density_strict_anti.1 100 200 (by norm_num) (by norm_num) (by norm_num),
   isa_density_strict_anti.2 12000 13000 (by norm_num) (by norm_num)⟩

/-- Gravity constant `G = 9.81` (source.js line 4). -/
noncomputable def G : ℝ := 9.81

/-- The horizontal wind component
`windX = windSpeed * Math.cos(windDirDeg * Math.PI / 180)`
(source.js lines 68-69); the wind has no vertical component. -/
noncomputable def windX (windSpeed windDirDeg : ℝ) : ℝ :=
  windSpeed * Real.cos (windDirDeg * Real.pi / 180)

/-- Initial horizontal velocity `vx = v0 * Math.cos(angleRad)`
(source.js lines 67, 71). -/
noncomputable def vx0 (v0 angleDeg : ℝ) : ℝ :=
  v0 * Real.cos (angleDeg * Real.pi / 180)

/-- Initial vertical velocity `vy = v0 * Math.sin(angleRad)`
(source.js lines 67, 72). -/
noncomputable def vy0 (v0 angleDeg : ℝ) : ℝ :=
  v0 * Real.sin (angleDeg * Real.pi / 180)

/-- A recorded trajectory point `{x, y}`. -/
structure Pt where
  x : ℝ
  y : ℝ

/-- The mutable loop state of `runPhysics` (source.js lines 71-113):
velocity, position, recorded points, running maximum height, raw step
counter. -/
structure PhysState where
  vx : ℝ
  vy : ℝ
  x : ℝ
  y : ℝ
  pts : List Pt
  maxH : ℝ
  steps : ℕ

/-- One iteration of the `while` loop body of `runPhysics`
(source.js lines 81-113): drag from the wind-relative velocity, gravity,
semi-implicit Euler update, max-height tracking, ground-crossing
interpolation with `y` clamped to exactly `0`, and point retention. -/
noncomputable def physStep (mass cd area dt wX : ℝ) (atmoModel : Atmo)
    (s : PhysState) : PhysState :=
  let rho := getAirDensity s.y atmoModel
  let k := 0.5 * cd * rho * area / mass
  let vrx := s.vx - wX
  let vry := s.vy
  let vr := Real.sqrt (vrx * vrx + vry * vry)
  let ax := if 0 < vr then -(k * vrx * vr) else 0
  let ay := if 0 < vr then -G - k * vry * vr else -G
  let vx := s.vx + ax * dt
  let vy := s.vy + ay * dt
  let x := s.x + vx * dt
  let y := s.y + vy * dt
  let maxH := if s.maxH < y then y else s.maxH
  let prev := s.pts.getLastD ⟨0, 0⟩
  let frac := prev.y / (prev.y - y)
  let x2 := if y < 0 then prev.x + frac * (x - prev.x) else x
  let y2 := if y < 0 then 0 else y
  let pts :=
    if s.steps < 50000 ∨ s.steps % max 1 (s.steps / 5000) = 0 then
      s.pts ++ [⟨x2, y2⟩]
    else s.pts
  { vx := vx, vy := vy, x := x2, y := y2, pts := pts, maxH := maxH,
    steps := s.steps + 1 }

/-- The `while (y >= 0 && steps < maxSteps)` loop of `runPhysics`
(source.js line 80), with the remaining step budget
`fuel = maxSteps - steps` made explicit. -/
noncomputable def physLoop (mass cd area dt wX : ℝ) (atmoModel : Atmo) :
    ℕ → PhysState → PhysState
  | 0, s => s
  | fuel + 1, s =>
    if 0 ≤ s.y then
      physLoop mass cd area dt wX atmoModel fuel
        (physStep mass cd area dt wX atmoModel s)
    else s

/-- The hard iteration cap `maxSteps = 20_000_000` (source.js line 78). -/
def maxSteps : ℕ := 20000000

/-- The record returned by `runPhysics` (source.js line 117). -/
structure PhysResult where
  pts : List Pt
  range : ℝ
  maxH : ℝ
  finalV : ℝ
  steps : ℕ

/-- Embedding of `runPhysics(v0, angleDeg, mass, cd, area, dt, y0,
windSpeed, windDirDeg, atmoModel)` (source.js lines 66-118). -/
noncomputable def runPhysics (v0 angleDeg mass cd area dt y0 windSpeed
    windDirDeg : ℝ) (atmoModel : Atmo) : PhysResult :=
  let wX := windX windSpeed windDirDeg
  let s0 : PhysState :=
    { vx := vx0 v0 angleDeg, vy := vy0 v0 angleDeg, x := 0, y := y0,
      pts := [⟨0, y0⟩], maxH := y0, steps := 0 }
  let sf := physLoop mass cd area dt wX atmoModel maxSteps s0
  { pts := sf.pts, range := sf.x, maxH := sf.maxH,
    finalV := Real.sqrt (sf.vx * sf.vx + sf.vy * sf.vy), steps := sf.steps }

/-- After any single loop iteration the height is nonnegative: a negative
`y` is immediately clamped to `0` by the crossing branch, so the loop
guard `y >= 0` can never become false. -/
theorem clamp_nonneg (t : ℝ) : 0 ≤ if t < 0 then (0 : ℝ) else t := by
  by_cases h : t < 0
  · rw [if_pos h]
  · rw [if_neg h]; exact le_of_not_lt h

theorem physStep_y_nonneg (mass cd area dt wX : ℝ) (atmoModel : Atmo)
    (s : PhysState) : 0 ≤ (physStep mass cd area dt wX atmoModel s).y := by
  simp only [physStep]
  exact clamp_nonneg _

/-- Starting from any state satisfying the loop guard, the loop consumes
all of its fuel: it performs exactly `fuel` further iterations. -/
theorem physLoop_steps (mass cd area dt wX : ℝ) (atmoModel : Atmo) :
    ∀ (fuel : ℕ) (s : PhysState), 0 ≤ s.y →
      (physLoop mass cd area dt wX atmoModel fuel s).steps = s.steps + fuel := by
  intro fuel
  induction fuel with
  | zero => intro s _; simp [physLoop]
  | succ n ih =>
    intro s hs
    simp only [physLoop, if_pos hs]
    rw [ih _ (physStep_y_nonneg mass cd area dt wX atmoModel s)]
    simp only [physStep]
    omega

/-- C1 (refuting theorem for the code bug): because the ground-crossing
branch clamps `y` to exactly `0` while the loop guard is `y >= 0`, the
guard never becomes false; for every parameter set with `y0 ≥ 0` —
including every trajectory that crosses the ground — `runPhysics` runs to
the hard cap and returns `steps = 20000000`, contradicting the claim that
a crossing stops the integrator with `stepCount` strictly below the cap
and that `stepCount == cap` identifies a trajectory that never crossed. -/
theorem runPhysics_steps_eq_cap (v0 angleDeg mass cd area dt windSpeed
    windDirDeg : ℝ) (atmoModel : Atmo) (y0 : ℝ) (h : 0 ≤ y0) :
    (runPhysics v0 angleDeg mass cd area dt y0 windSpeed windDirDeg
      atmoModel).steps = 20000000 := by
  have := physLoop_steps mass cd area dt (windX windSpeed windDirDeg)
    atmoModel maxSteps
    { vx := vx0 v0 angleDeg, vy := vy0 v0 angleDeg, x := 0, y := y0,
      pts := [⟨0, y0⟩], maxH := y0, steps := 0 } h
  simpa [runPhysics, maxSteps] using this

/-- Witness for `runPhysics_steps_eq_cap`: the drag-free shot
`v0 = 1, angle = 0°, mass = 1, cd = 0, area = 1, dt = 1, y0 = 1` drops
below the ground during the very first step, yet the returned step count
is the full 20,000,000 cap. -/
theorem runPhysics_steps_eq_cap_witness :
    (0 : ℝ) ≤ 1 ∧
    (runPhysics 1 0 1 0 1 1 1 0 0 Atmo.const).steps = 20000000 :=
  ⟨by norm_num,
   runPhysics_steps_eq_cap 1 0 1 0 1 1 0 0 Atmo.const 1 (by norm_num)⟩

/-- C2 (counterexample): with wind direction 0°, wind speed 5, launch
angle 0° and `v0 = 10` — all satisfying the claim's hypotheses — the
horizontal wind component has the SAME sign as the projectile's
horizontal velocity (their product is positive), so the claim that a 0°
wind opposes the motion is false on the code. -/
theorem wind_headwind_counterexample :
    0 < (5 : ℝ) ∧ -90 < (0 : ℝ) ∧ (0 : ℝ) < 90 ∧ 0 < (10 : ℝ) ∧
    ¬ windX 5 0 * vx0 10 0 < 0 := by
  refine ⟨by norm_num, by norm_num, by norm_num, by norm_num, ?_⟩
  have h1 : windX 5 0 = 5 := by simp [windX]
  have h2 : vx0 10 0 = 10 := by simp [vx0]
  rw [h1, h2]
  norm_num

/-- C2 (amended): with wind direction 0°, positive wind speed and launch
angle strictly between -90° and 90° (and `v0 > 0`), the horizontal wind
component used by the integrator has the SAME sign as the projectile's
initial horizontal velocity — a 0° wind is a pure tailwind along the
direction of motion, not a headwind. -/
theorem wind_dir_zero_tailwind (v0 ws angle : ℝ) (hws : 0 < ws)
    (h1 : -90 < angle) (h2 : angle < 90) (hv : 0 < v0) :
    0 < windX ws 0 ∧ 0 < vx0 v0 angle := by
  constructor
  · have h : windX ws 0 = ws := by simp [windX]
    rw [h]; exact hws
  · have hpi := Real.pi_pos
    have hl : -(Real.pi / 2) < angle * Real.pi / 180 := by
      nlinarith [mul_pos hpi (show (0 : ℝ) < angle + 90 by linarith)]
    have hr : angle * Real.pi / 180 < Real.pi / 2 := by
      nlinarith [mul_pos hpi (show (0 : ℝ) < 90 - angle by linarith)]
    have hcos := Real.cos_pos_of_mem_Ioo ⟨hl, hr⟩
    simp only [vx0]
    exact mul_pos hv hcos

/-- Witness for `wind_dir_zero_tailwind` with wind speed 1, angle 0° and
`v0 = 1`. -/
theorem wind_dir_zero_tailwind_witness :
    0 < windX 1 0 ∧ 0 < vx0 1 0 :=
  wind_dir_zero_tailwind 1 1 0 (by norm_num) (by norm_num) (by norm_num)
    (by norm_num)

/-- Decimal digits of `n`, least significant first, with explicit fuel;
`natDigitsAux (n + 1) n` computes the digits of `n` (the fuel bound
`n + 1` always suffices since the argument shrinks under division). -/
def natDigitsAux : ℕ → ℕ → List ℕ
  | 0, _ => []
  | fuel + 1, n => if n = 0 then [] else n % 10 :: natDigitsAux fuel (n / 10)

/-- Numeric value of a least-significant-first digit list. -/
def undigits : List ℕ → ℕ
  | [] => 0
  | d :: ds => d + 10 * undigits ds

theorem natDigitsAux_undigits :
    ∀ (fuel n : ℕ), n ≤ fuel → undigits (natDigitsAux fuel n) = n := by
  intro fuel
  induction fuel with
  | zero =>
    intro n h
    have hn : n = 0 := Nat.le_zero.mp h
    subst hn
    simp [natDigitsAux, undigits]
  | succ k ih =>
    intro n h
    by_cases hn : n = 0
    · simp [natDigitsAux, hn, undigits]
    · have hdiv : n / 10 ≤ k := by
        have := Nat.div_lt_self (Nat.pos_of_ne_zero hn) (by norm_num : 1 < 10)
        omega
      simp only [natDigitsAux, if_neg hn, undigits]
      rw [ih _ hdiv]
      omega

theorem natDigitsAux_lt_ten :
    ∀ (fuel n d : ℕ), d ∈ natDigitsAux fuel n → d < 10 := by
  intro fuel
  induction fuel with
  | zero => intro n d h; simp [natDigitsAux] at h
  | succ k ih =>
    intro n d h
    by_cases hn : n = 0
    · simp [natDigitsAux, hn] at h
    · simp only [natDigitsAux, if_neg hn, List.mem_cons] at h
      rcases h with h | h
      · subst h; exact Nat.mod_lt _ (by norm_num)
      · exact ih _ _ h

/-- Inverse of `Nat.digitChar` on decimal digits. -/
def charVal : Char → ℕ
  | '1' => 1
  | '2' => 2
  | '3' => 3
  | '4' => 4
  | '5' => 5
  | '6' => 6
  | '7' => 7
  | '8' => 8
  | '9' => 9
  | _ => 0

theorem charVal_digitChar : ∀ d, d < 10 → charVal (Nat.digitChar d) = d := by
  decide

theorem digitChar_not_special : ∀ d, d < 10 →
    Nat.digitChar d ≠ '_' ∧ Nat.digitChar d ≠ '-' ∧ Nat.digitChar d ≠ '/' := by
  decide

/-- Decimal character rendering of a natural number, most significant
digit first; `0` renders as `"0"`. -/
def natChars (n : ℕ) : List Char :=
  if n = 0 then ['0'] else (natDigitsAux (n + 1) n).reverse.map Nat.digitChar

/-- Decoder for `natChars`, used to prove it injective. -/
def decodeNat (l : List Char) : ℕ := undigits ((l.map charVal).reverse)

theorem decodeNat_natChars (n : ℕ) : decodeNat (natChars n) = n := by
  by_cases hn : n = 0
  · subst hn; decide
  · simp only [natChars, if_neg hn, decodeNat, List.map_map, List.map_reverse,
      List.reverse_reverse]
    have hmap : (natDigitsAux (n + 1) n).map (charVal ∘ Nat.digitChar) =
        (natDigitsAux (n + 1) n).map id := by
      apply List.map_congr_left
      intro d hd
      exact charVal_digitChar d (natDigitsAux_lt_ten _ _ _ hd)
    rw [hmap, List.map_id]
    exact natDigitsAux_undigits _ _ (Nat.le_succ n)

theorem natChars_inj {m n : ℕ} (h : natChars m = natChars n) : m = n := by
  rw [← decodeNat_natChars m, ← decodeNat_natChars n, h]

theorem natChars_eq_digitChar {n : ℕ} {c : Char} (h : c ∈ natChars n) :
    ∃ d, d < 10 ∧ c = Nat.digitChar d := by
  by_cases hn : n = 0
  · subst hn
    have h0 : natChars 0 = ['0'] := rfl
    rw [h0, List.mem_singleton] at h
    exact ⟨0, by norm_num, by rw [h]; rfl⟩
  · simp only [natChars, if_neg hn, List.mem_map, List.mem_reverse] at h
    obtain ⟨d, hd, hc⟩ := h
    exact ⟨d, natDigitsAux_lt_ten _ _ _ hd, hc.symm⟩

theorem natChars_not_special {n : ℕ} {c : Char} (h : c ∈ natChars n) :
    c ≠ '_' ∧ c ≠ '-' ∧ c ≠ '/' := by
  obtain ⟨d, hd, rfl⟩ := natChars_eq_digitChar h
  exact digitChar_not_special d hd

/-- Character rendering of a rational parameter value: sign, then the
numerator magnitude, a slash, and the denominator. It stands in for the
JS number-to-string conversion inside the template literal of
source.js line 139; like that conversion it is injective and never
produces the underscore separator character. -/
def ratData (q : ℚ) : List Char :=
  (if q.num < 0 then ['-'] else []) ++ natChars q.num.natAbs ++ '/' :: natChars q.den

/-- String form of `ratData`. -/
def ratStr (q : ℚ) : String := String.mk (ratData q)

theorem ratData_no_underscore {q : ℚ} : '_' ∉ ratData q := by
  intro h
  simp only [ratData, List.mem_append, List.mem_cons] at h
  rcases h with (h | h) | h | h
  · by_cases hq : q.num < 0
    · rw [if_pos hq] at h
      simp only [List.mem_singleton] at h
      exact absurd h (by decide)
    · rw [if_neg hq] at h
      simp at h
  · exact (natChars_not_special h).1 rfl
  · exact absurd h (by decide)
  · exact (natChars_not_special h).1 rfl

theorem ratStr_no_underscore {q : ℚ} : '_' ∉ (ratStr q).data :=
  ratData_no_underscore

theorem ratIntPart_no_slash {q : ℚ} :
    '/' ∉ ((if q.num < 0 then ['-'] else []) ++ natChars q.num.natAbs) := by
  intro h
  simp only [List.mem_append] at h
  rcases h with h | h
  · by_cases hq : q.num < 0
    · rw [if_pos hq] at h
      simp only [List.mem_singleton] at h
      exact absurd h (by decide)
    · rw [if_neg hq] at h
      simp at h
  · exact (natChars_not_special h).2.2 rfl

theorem append_sep_inj (sep : Char) :
    ∀ (l1 l2 r1 r2 : List Char), sep ∉ l1 → sep ∉ l2 →
      l1 ++ sep :: r1 = l2 ++ sep :: r2 → l1 = l2 ∧ r1 = r2 := by
  intro l1
  induction l1 with
  | nil =>
    intro l2 r1 r2 h1 h2 h
    cases l2 with
    | nil => simpa using h
    | cons b t =>
      simp only [List.nil_append, List.cons_append, List.cons.injEq] at h
      obtain ⟨hb, _⟩ := h
      subst hb
      exact absurd (List.mem_cons_self _ _) h2
  | cons a t ih =>
    intro l2 r1 r2 h1 h2 h
    cases l2 with
    | nil =>
      simp only [List.cons_append, List.nil_append, List.cons.injEq] at h
      obtain ⟨hb, _⟩ := h
      subst hb
      exact absurd (List.mem_cons_self _ _) h1
    | cons b t2 =>
      simp only [List.cons_append, List.cons.injEq] at h
      obtain ⟨hab, hrest⟩ := h
      have hrec := ih t2 r1 r2 (fun hm => h1 (List.mem_cons_of_mem a hm))
        (fun hm => h2 (List.mem_cons_of_mem b hm)) hrest
      exact ⟨by rw [hab, hrec.1], hrec.2⟩

theorem ratStr_inj {p q : ℚ} (h : ratStr p = ratStr q) : p = q := by
  have hd : ratData p = ratData q := congrArg String.data h
  rw [ratData, ratData] at hd
  obtain ⟨hint, hden⟩ := append_sep_inj '/' _ _ _ _ ratIntPart_no_slash
    ratIntPart_no_slash hd
  have hden2 : p.den = q.den := natChars_inj hden
  by_cases hp : p.num < 0 <;> by_cases hq : q.num < 0
  · rw [if_pos hp, if_pos hq] at hint
    simp only [List.singleton_append, List.cons.injEq, true_and] at hint
    have habs := natChars_inj hint
    have hnum : p.num = q.num := by omega
    exact Rat.ext hnum hden2
  · rw [if_pos hp, if_neg hq] at hint
    simp only [List.singleton_append, List.nil_append] at hint
    exact absurd ((natChars_not_special (hint ▸ List.mem_cons_self '-'
      (natChars p.num.natAbs))).2.1) (by simp)
  · rw [if_neg hp, if_pos hq] at hint
    simp only [List.singleton_append, List.nil_append] at hint
    exact absurd ((natChars_not_special (hint.symm ▸ List.mem_cons_self '-'
      (natChars q.num.natAbs))).2.1) (by simp)
  · rw [if_neg hp, if_neg hq] at hint
    simp only [List.nil_append] at hint
    have habs := natChars_inj hint
    have hnum : p.num = q.num := by omega
    exact Rat.ext hnum hden2

/-- String form of the atmosphere selector, the JS `atmo` value
interpolated into the fingerprint template. -/
def atmoStr : Atmo → String
  | .const => "const"
  | .const129 => "const129"
  | .isa => "isa"

theorem atmoStr_no_underscore (a : Atmo) : '_' ∉ (atmoStr a).data := by
  cases a <;> decide

theorem atmoStr_inj {a b : Atmo} (h : atmoStr a = atmoStr b) : a = b := by
  cases a <;> cases b <;> first
    | rfl
    | exact absurd h (by decide)

/-- Embedding of the fingerprint key of source.js line 139:
the parameter fields formatted and concatenated with underscores, in the
fixed order dt, cd, atmo, windSpeed, windDir, v0, angle, mass, area, y0. -/
def fingerprint (dt cd : ℚ) (atmo : Atmo)
    (windSpeed windDir v0 angle mass area y0 : ℚ) : String :=
  ratStr dt ++ "_" ++ ratStr cd ++ "_" ++ atmoStr atmo ++ "_" ++
    ratStr windSpeed ++ "_" ++ ratStr windDir ++ "_" ++ ratStr v0 ++ "_" ++
    ratStr angle ++ "_" ++ ratStr mass ++ "_" ++ ratStr area ++ "_" ++
    ratStr y0

theorem fingerprint_inj
    {dt cd windSpeed windDir v0 angle mass area y0 : ℚ} {atmo : Atmo}
    {dt2 cd2 windSpeed2 windDir2 v02 angle2 mass2 area2 y02 : ℚ} {atmo2 : Atmo}
    (h : fingerprint dt cd atmo windSpeed windDir v0 angle mass area y0 =
      fingerprint dt2 cd2 atmo2 windSpeed2 windDir2 v02 angle2 mass2 area2 y02) :
    dt = dt2 ∧ cd = cd2 ∧ atmo = atmo2 ∧ windSpeed = windSpeed2 ∧
      windDir = windDir2 ∧ v0 = v02 ∧ angle = angle2 ∧ mass = mass2 ∧
      area = area2 ∧ y0 = y02 := by
  have hd := congrArg String.data h
  simp only [fingerprint, String.data_append,
    show ("_" : String).data = ['_'] from rfl, List.append_assoc,
    List.singleton_append] at hd
  obtain ⟨h1, hd⟩ := append_sep_inj '_' _ _ _ _ ratStr_no_underscore
    ratStr_no_underscore hd
  obtain ⟨h2, hd⟩ := append_sep_inj '_' _ _ _ _ ratStr_no_underscore
    ratStr_no_underscore hd
  obtain ⟨h3, hd⟩ := append_sep_inj '_' _ _ _ _ (atmoStr_no_underscore atmo)
    (atmoStr_no_underscore atmo2) hd
  obtain ⟨h4, hd⟩ := append_sep_inj '_' _ _ _ _ ratStr_no_underscore
    ratStr_no_underscore hd
  obtain ⟨h5, hd⟩ := append_sep_inj '_' _ _ _ _ ratStr_no_underscore
    ratStr_no_underscore hd
  obtain ⟨h6, hd⟩ := append_sep_inj '_' _ _ _ _ ratStr_no_underscore
    ratStr_no_underscore hd
  obtain ⟨h7, hd⟩ := append_sep_inj '_' _ _ _ _ ratStr_no_underscore
    ratStr_no_underscore hd
  obtain ⟨h8, hd⟩ := append_sep_inj '_' _ _ _ _ ratStr_no_underscore
    ratStr_no_underscore hd
  obtain ⟨h9, hd⟩ := append_sep_inj '_' _ _ _ _ ratStr_no_underscore
    ratStr_no_underscore hd
  exact ⟨ratStr_inj (String.ext h1), ratStr_inj (String.ext h2),
    atmoStr_inj (String.ext h3), ratStr_inj (String.ext h4),
    ratStr_inj (String.ext h5), ratStr_inj (String.ext h6),
    ratStr_inj (String.ext h7), ratStr_inj (String.ext h8),
    ratStr_inj (String.ext h9), ratStr_inj (String.ext hd)⟩

/-- The fixed 8-entry color palette `COLORS` (source.js line 2). -/
def COLORS : List String :=
  ["#00d4ff", "#ff6b35", "#7fff7f", "#ff4fa3", "#ffd700", "#b06fff",
   "#ff9999", "#00ffcc"]

/-- The store capacity `MAX_TRAJ = 20` (source.js line 3). -/
def MAX_TRAJ : ℕ := 20

/-- A stored trajectory entry
`{ dt, color, shapeName, cd, atmo, windSpeed, ...result }`
(source.js line 156), with the `runPhysics` result spread inline. -/
structure Entry where
  dt : ℚ
  color : String
  shapeName : String
  cd : ℚ
  atmo : Atmo
  windSpeed : ℚ
  pts : List Pt
  range : ℝ
  maxH : ℝ
  finalV : ℝ
  steps : ℕ

/-- The values `simulate()` reads from the controls (source.js lines
124-135), already parsed: `dt` is `none` when `parseFloat` produced NaN;
`y0`, `windSpeed` and `windDir` carry their `|| 0` fallback already
applied. -/
structure Inputs where
  dt : Option ℚ
  v0 : ℚ
  angle : ℚ
  mass : ℚ
  area : ℚ
  y0 : ℚ
  windSpeed : ℚ
  windDir : ℚ
  atmo : Atmo
  cd : ℚ
  shapeName : String

/-- The module-level mutable variables of source.js lines 7-13 that the
store operations read or write: `trajectories`, `colorIdx`,
`computedKeys` (JS `Set`, modelled as the list of inserted keys) and
`isRunning`; the display-only animation bookkeeping
(`animFrame`, `animTraj`, `animIdx`) is not modelled. -/
structure StoreState where
  trajectories : List Entry
  colorIdx : ℕ
  computedKeys : List String
  isRunning : Bool

/-- Observable outcome of one `simulate()` call, read off from which
branch of source.js lines 121-179 runs. -/
inductive SimOutcome where
  | busy
  | invalidStep
  | duplicate
  | capacity
  | accepted (color : String)
deriving DecidableEq

/-- The fingerprint of an input set with its parsed time step. -/
def inputKey (dt : ℚ) (inp : Inputs) : String :=
  fingerprint dt inp.cd inp.atmo inp.windSpeed inp.windDir inp.v0 inp.angle
    inp.mass inp.area inp.y0

/-- Embedding of `simulate()` (source.js lines 121-179) as a state
transformer: the early returns for a running animation, an invalid time
step, a duplicate key and a full store leave the state untouched; the
success path runs the physics, assigns `COLORS[colorIdx % COLORS.length]`,
increments the counter, records the key and appends the entry, and ends
in `animateProjectile`, which sets `isRunning` to `true`
(source.js line 186). -/
noncomputable def simulate (st : StoreState) (inp : Inputs) :
    StoreState × SimOutcome :=
  if st.isRunning then (st, .busy)
  else
    match inp.dt with
    | none => (st, .invalidStep)
    | some dt =>
      if dt ≤ 0 then (st, .invalidStep)
      else
        let key := inputKey dt inp
        if key ∈ st.computedKeys then (st, .duplicate)
        else if MAX_TRAJ ≤ st.trajectories.length then (st, .capacity)
        else
          let result := runPhysics inp.v0 inp.angle inp.mass inp.cd inp.area
            dt inp.y0 inp.windSpeed inp.windDir inp.atmo
          let color := COLORS.getD (st.colorIdx % COLORS.length) ""
          let entry : Entry :=
            { dt := dt, color := color, shapeName := inp.shapeName,
              cd := inp.cd, atmo := inp.atmo, windSpeed := inp.windSpeed,
              pts := result.pts, range := result.range, maxH := result.maxH,
              finalV := result.finalV, steps := result.steps }
          ({ trajectories := st.trajectories ++ [entry],
             colorIdx := st.colorIdx + 1,
             computedKeys := key :: st.computedKeys,
             isRunning := true }, .accepted color)

/-- Completion of the playback animation: the `step` callback of
`animateProjectile` clears `isRunning` once the display index runs off
the end of the point list (source.js lines 191-197). -/
def animEnd (st : StoreState) : StoreState :=
  { st with isRunning := false }

/-- Embedding of `clearAll()` (source.js lines 410-426): a no-op while
the animation is running; otherwise it resets `trajectories`,
`colorIdx` and `computedKeys` together (the DOM updates are not
modelled). -/
def clearAll (st : StoreState) : StoreState :=
  if st.isRunning then st
  else { st with trajectories := [], colorIdx := 0, computedKeys := [] }

/-- Store states reachable from the initial module state of source.js
lines 7-13 under the modelled events: a `simulate()` call, the playback
animation finishing, and a `clearAll()` call. -/
inductive Reachable : StoreState → Prop where
  | init : Reachable
      { trajectories := [], colorIdx := 0, computedKeys := [],
        isRunning := false }
  | sim (st : StoreState) (inp : Inputs) :
      Reachable st → Reachable (simulate st inp).1
  | animDone (st : StoreState) : Reachable st → Reachable (animEnd st)
  | clear (st : StoreState) : Reachable st → Reachable (clearAll st)

/-- Store invariants maintained by every operation: the capacity bound,
the color counter equals the number of stored entries, and entry `i`
carries palette color `i % 8`. -/
def StoreInv (st : StoreState) : Prop :=
  st.trajectories.length ≤ MAX_TRAJ ∧
  st.colorIdx = st.trajectories.length ∧
  st.trajectories.map Entry.color =
    (List.range st.trajectories.length).map
      (fun i => COLORS.getD (i % COLORS.length) "")

theorem storeInv_simulate (st : StoreState) (inp : Inputs)
    (h : StoreInv st) : StoreInv (simulate st inp).1 := by
  by_cases hrun : st.isRunning
  · simp only [simulate, if_pos hrun]; exact h
  · cases hdt : inp.dt with
    | none => simp only [simulate, if_neg hrun, hdt]; exact h
    | some d =>
      by_cases hd : d ≤ 0
      · simp only [simulate, if_neg hrun, hdt, if_pos hd]; exact h
      · by_cases hkey : inputKey d inp ∈ st.computedKeys
        · simp only [simulate, if_neg hrun, hdt, if_neg hd, if_pos hkey]
          exact h
        · by_cases hcap : MAX_TRAJ ≤ st.trajectories.length
          · simp only [simulate, if_neg hrun, hdt, if_neg hd, if_neg hkey,
              if_pos hcap]
            exact h
          · simp only [simulate, if_neg hrun, hdt, if_neg hd, if_neg hkey,
              if_neg hcap]
            obtain ⟨hlen, hcolor, hmap⟩ := h
            refine ⟨?_, ?_, ?_⟩
            · simp only [List.length_append, List.length_singleton]
              omega
            · simp only [List.length_append, List.length_singleton]
              omega
            · simp only [List.length_append, List.length_singleton,
                List.map_append, List.map_cons, List.map_nil]
              rw [hmap, List.range_succ, List.map_append]
              simp only [List.map_cons, List.map_nil]
              rw [hcolor]

theorem reachable_storeInv {st : StoreState} (h : Reachable st) :
    StoreInv st := by
  induction h with
  | init => exact ⟨Nat.zero_le _, rfl, rfl⟩
  | sim st inp _ ih => exact storeInv_simulate st inp ih
  | animDone st _ ih => exact ih
  | clear st _ ih =>
    by_cases hrun : st.isRunning
    · simp only [clearAll, if_pos hrun]; exact ih
    · simp only [clearAll, if_neg hrun]
      exact ⟨Nat.zero_le _, rfl, rfl⟩

/-- The initial module state (source.js lines 7-13). -/
def initState : StoreState :=
  { trajectories := [], colorIdx := 0, computedKeys := [], isRunning := false }

/-- A concrete well-formed control reading used by the witnesses. -/
def inpBase : Inputs :=
  { dt := some 1, v0 := 10, angle := 45, mass := 1, area := 1, y0 := 0,
    windSpeed := 0, windDir := 0, atmo := .const, cd := 1,
    shapeName := "Sphere" }

theorem simulate_eq_busy {st : StoreState} (inp : Inputs)
    (hrun : st.isRunning = true) : simulate st inp = (st, SimOutcome.busy) := by
  simp [simulate, hrun]

theorem simulate_eq_invalid_none {st : StoreState} {inp : Inputs}
    (hrun : st.isRunning = false) (hdt : inp.dt = none) :
    simulate st inp = (st, SimOutcome.invalidStep) := by
  simp [simulate, hrun, hdt]

theorem simulate_eq_invalid_nonpos {st : StoreState} {inp : Inputs} {d : ℚ}
    (hrun : st.isRunning = false) (hdt : inp.dt = some d) (hd : d ≤ 0) :
    simulate st inp = (st, SimOutcome.invalidStep) := by
  simp [simulate, hrun, hdt, hd]

theorem simulate_eq_duplicate {st : StoreState} {inp : Inputs} {d : ℚ}
    (hrun : st.isRunning = false) (hdt : inp.dt = some d) (hd : ¬ d ≤ 0)
    (hkey : inputKey d inp ∈ st.computedKeys) :
    simulate st inp = (st, SimOutcome.duplicate) := by
  simp [simulate, hrun, hdt, hd, hkey]

theorem simulate_eq_capacity {st : StoreState} {inp : Inputs} {d : ℚ}
    (hrun : st.isRunning = false) (hdt : inp.dt = some d) (hd : ¬ d ≤ 0)
    (hkey : inputKey d inp ∉ st.computedKeys)
    (hcap : MAX_TRAJ ≤ st.trajectories.length) :
    simulate st inp = (st, SimOutcome.capacity) := by
  simp [simulate, hrun, hdt, hd, hkey, hcap]

theorem simulate_accepted_parts {st : StoreState} {inp : Inputs} {d : ℚ}
    (hrun : st.isRunning = false) (hdt : inp.dt = some d) (hd : ¬ d ≤ 0)
    (hkey : inputKey d inp ∉ st.computedKeys)
    (hcap : ¬ MAX_TRAJ ≤ st.trajectories.length) :
    (simulate st inp).2 =
      SimOutcome.accepted (COLORS.getD (st.colorIdx % COLORS.length) "") ∧
    (simulate st inp).1.trajectories.length = st.trajectories.length + 1 ∧
    (simulate st inp).1.computedKeys = inputKey d inp :: st.computedKeys ∧
    (simulate st inp).1.colorIdx = st.colorIdx + 1 ∧
    (simulate st inp).1.isRunning = true := by
  simp [simulate, hrun, hdt, hd, hkey, hcap]

/-- The base inputs with `mass = -1`: a parameter set the claim says must
be rejected as a precondition violation. -/
def badInp : Inputs := { inpBase with mass := -1 }

/-- The base inputs with a NaN time step. -/
def nanInp : Inputs := { inpBase with dt := none }

/-- C3 (counterexample): the code validates only `dt`. With `mass = -1`
(a violated "required positive field") and a valid `dt`, `simulate` on
the empty store does NOT fail validation: it accepts the run and stores
a trajectory, refuting the claim that such parameter sets are rejected
before integration. -/
theorem validation_counterexample :
    badInp.mass ≤ 0 ∧
    (simulate initState badInp).2 ≠ SimOutcome.invalidStep ∧
    (simulate initState badInp).2 = SimOutcome.accepted "#00d4ff" ∧
    (simulate initState badInp).1.trajectories.length = 1 := by
  refine ⟨by norm_num [badInp, inpBase], ?_, ?_, ?_⟩
  · decide
  · decide
  · decide

/-- C3 (amended): `simulate` validates only the time step. A NaN or
nonpositive `dt` is rejected before any integration work with no state
mutation; `v0`, `mass` and `area` are not validated, and whenever `dt`
is valid and neither the duplicate nor the capacity rejection applies,
a trajectory is computed and stored. -/
theorem dt_validation (st : StoreState) (inp : Inputs)
    (hrun : st.isRunning = false) :
    (inp.dt = none → simulate st inp = (st, SimOutcome.invalidStep)) ∧
    (∀ d : ℚ, inp.dt = some d → d ≤ 0 →
      simulate st inp = (st, SimOutcome.invalidStep)) ∧
    (∀ d : ℚ, inp.dt = some d → 0 < d →
      inputKey d inp ∉ st.computedKeys →
      st.trajectories.length < MAX_TRAJ →
      (simulate st inp).2 =
        SimOutcome.accepted (COLORS.getD (st.colorIdx % COLORS.length) "") ∧
      (simulate st inp).1.trajectories.length =
        st.trajectories.length + 1) := by
  refine ⟨fun hdt => simulate_eq_invalid_none hrun hdt,
    fun d hdt hd => simulate_eq_invalid_nonpos hrun hdt hd,
    fun d hdt hd hkey hcap => ?_⟩
  have h := simulate_accepted_parts hrun hdt (not_le.mpr hd) hkey
    (not_le.mpr hcap)
  exact ⟨h.1, h.2.1⟩

/-- Witness for `dt_validation` on the empty store: a NaN `dt` is
rejected with the state unchanged, while the base inputs are accepted
and stored. -/
theorem dt_validation_witness :
    simulate initState nanInp = (initState, SimOutcome.invalidStep) ∧
    (simulate initState inpBase).2 =
      SimOutcome.accepted (COLORS.getD (0 % COLORS.length) "") ∧
    (simulate initState inpBase).1.trajectories.length = 0 + 1 :=
  ⟨(dt_validation initState nanInp rfl).1 rfl,
   ((dt_validation initState inpBase rfl).2.2 1 rfl (by norm_num)
     (by decide) (by decide)).1,
   ((dt_validation initState inpBase rfl).2.2 1 rfl (by norm_num)
     (by decide) (by decide)).2⟩

/-- A concrete state with the animation flag set. -/
def runningState : StoreState :=
  { trajectories := [], colorIdx := 0, computedKeys := [],
    isRunning := true }

/-- C10: while a playback animation is in progress (`isRunning` set),
both `simulate()` and `clearAll()` return immediately as no-ops: the
trajectory collection, the fingerprint set and the color counter are
all left unchanged and no integration is performed. -/
theorem running_blocks_simulate_and_clear (st : StoreState) (inp : Inputs)
    (hrun : st.isRunning = true) :
    simulate st inp = (st, SimOutcome.busy) ∧ clearAll st = st := by
  refine ⟨simulate_eq_busy inp hrun, ?_⟩
  simp [clearAll, hrun]

/-- Witness for `running_blocks_simulate_and_clear` on a concrete
running state. -/
theorem running_blocks_witness :
    simulate runningState inpBase = (runningState, SimOutcome.busy) ∧
    clearAll runningState = runningState :=
  running_blocks_simulate_and_clear runningState inpBase rfl

/-- One user round: a `simulate()` click followed by the playback
animation finishing (which is what re-enables the Run button in the
UI). -/
noncomputable def simRound (st : StoreState) (inp : Inputs) : StoreState :=
  animEnd (simulate st inp).1

theorem reachable_simRound {st : StoreState} (inp : Inputs)
    (h : Reachable st) : Reachable (simRound st inp) :=
  Reachable.animDone _ (Reachable.sim st inp h)

theorem reachable_foldl (l : List Inputs) :
    ∀ {st : StoreState}, Reachable st → Reachable (l.foldl simRound st) := by
  induction l with
  | nil => intro st h; exact h
  | cons a t ih => intro st h; exact ih (reachable_simRound a h)

/-- The store after running the base inputs once (and letting the
animation finish). -/
noncomputable def st1 : StoreState := simRound initState inpBase

/-- C5: an insert whose fingerprint is already in the store is rejected
as a duplicate and is all-or-nothing: the returned state is exactly the
state before the call, so the trajectory collection, the fingerprint
set and the color counter are all untouched. -/
theorem duplicate_insert_rejected (st : StoreState) (inp : Inputs) (d : ℚ)
    (hreach : Reachable st) (hrun : st.isRunning = false)
    (hdt : inp.dt = some d) (hd : 0 < d)
    (hkey : inputKey d inp ∈ st.computedKeys) :
    simulate st inp = (st, SimOutcome.duplicate) :=
  simulate_eq_duplicate hrun hdt (not_le.mpr hd) hkey

/-- Witness for `duplicate_insert_rejected`: re-running the base inputs
against the one-entry store is rejected with the state unchanged. -/
theorem duplicate_insert_rejected_witness :
    simulate st1 inpBase = (st1, SimOutcome.duplicate) :=
  duplicate_insert_rejected st1 inpBase 1
    (reachable_simRound inpBase Reachable.init) rfl rfl (by norm_num)
    (by decide)

theorem reachable_color_at {st : StoreState} (hr : Reachable st) (i : ℕ)
    (hlt : i < st.trajectories.length) :
    (st.trajectories.get ⟨i, hlt⟩).color =
      COLORS.getD (i % COLORS.length) "" := by
  have hmap := (reachable_storeInv hr).2.2
  have h1 : i < (st.trajectories.map Entry.color).length := by simpa using hlt
  have hA : (st.trajectories.map Entry.color).get ⟨i, h1⟩ =
      (st.trajectories.get ⟨i, hlt⟩).color := by
    simp [List.get_map]
  have h2 : i < ((List.range st.trajectories.length).map
      (fun j => COLORS.getD (j % COLORS.length) "")).length := by
    simpa using hlt
  have hB : ((List.range st.trajectories.length).map
      (fun j => COLORS.getD (j % COLORS.length) "")).get ⟨i, h2⟩ =
      COLORS.getD (i % COLORS.length) "" := by
    simp [List.get_map, List.get_range]
  rw [← hA, ← hB]
  exact List.get_of_eq hmap ⟨i, h1⟩

/-- C6: in every reachable store state the i-th stored trajectory
(0-based, insertion order) carries palette color `i mod 8` from the
8-entry palette; colors are fixed by insertion position and never
reassigned, and in particular a 9th stored entry has the same color as
the 1st. -/
theorem color_cycling :
    COLORS.length = 8 ∧
    (∀ st : StoreState, Reachable st →
      ∀ i (hlt : i < st.trajectories.length),
        (st.trajectories.get ⟨i, hlt⟩).color =
          COLORS.getD (i % COLORS.length) "") ∧
    (∀ st : StoreState, Reachable st →
      ∀ hlt : 8 < st.trajectories.length,
        (st.trajectories.get ⟨8, hlt⟩).color =
          (st.trajectories.get ⟨0, Nat.lt_trans (by norm_num) hlt⟩).color) := by
  refine ⟨rfl, fun st hr i hlt => reachable_color_at hr i hlt,
    fun st hr hlt => ?_⟩
  rw [reachable_color_at hr 8 hlt,
    reachable_color_at hr 0 (Nat.lt_trans (by norm_num) hlt)]
  rfl

/-- Witness for `color_cycling`: the single entry of the one-entry store
carries the palette color at index 0. -/
theorem color_cycling_witness :
    (st1.trajectories.get ⟨0, by decide⟩).color =
      COLORS.getD (0 % COLORS.length) "" :=
  color_cycling.2.1 st1 (reachable_simRound inpBase Reachable.init) 0
    (by decide)

/-- The ten parameter fields the fingerprint key is computed from, in
the template's order (source.js line 139). -/
structure FingerprintFields where
  dt : ℚ
  cd : ℚ
  atmo : Atmo
  windSpeed : ℚ
  windDir : ℚ
  v0 : ℚ
  angle : ℚ
  mass : ℚ
  area : ℚ
  y0 : ℚ

/-- The fingerprint key as a function of the bundled ten fields. -/
def fingerprintOf (p : FingerprintFields) : String :=
  fingerprint p.dt p.cd p.atmo p.windSpeed p.windDir p.v0 p.angle p.mass
    p.area p.y0

/-- Two field tuples that agree everywhere except in exactly one of the
ten fields. -/
def DiffersInOneField (p q : FingerprintFields) : Prop :=
  (p.dt ≠ q.dt ∧ p.cd = q.cd ∧ p.atmo = q.atmo ∧ p.windSpeed = q.windSpeed ∧ p.windDir = q.windDir ∧ p.v0 = q.v0 ∧ p.angle = q.angle ∧ p.mass = q.mass ∧ p.area = q.area ∧ p.y0 = q.y0) ∨
    (p.dt = q.dt ∧ p.cd ≠ q.cd ∧ p.atmo = q.atmo ∧ p.windSpeed = q.windSpeed ∧ p.windDir = q.windDir ∧ p.v0 = q.v0 ∧ p.angle = q.angle ∧ p.mass = q.mass ∧ p.area = q.area ∧ p.y0 = q.y0) ∨
    (p.dt = q.dt ∧ p.cd = q.cd ∧ p.atmo ≠ q.atmo ∧ p.windSpeed = q.windSpeed ∧ p.windDir = q.windDir ∧ p.v0 = q.v0 ∧ p.angle = q.angle ∧ p.mass = q.mass ∧ p.area = q.area ∧ p.y0 = q.y0) ∨
    (p.dt = q.dt ∧ p.cd = q.cd ∧ p.atmo = q.atmo ∧ p.windSpeed ≠ q.windSpeed ∧ p.windDir = q.windDir ∧ p.v0 = q.v0 ∧ p.angle = q.angle ∧ p.mass = q.mass ∧ p.area = q.area ∧ p.y0 = q.y0) ∨
    (p.dt = q.dt ∧ p.cd = q.cd ∧ p.atmo = q.atmo ∧ p.windSpeed = q.windSpeed ∧ p.windDir ≠ q.windDir ∧ p.v0 = q.v0 ∧ p.angle = q.angle ∧ p.mass = q.mass ∧ p.area = q.area ∧ p.y0 = q.y0) ∨
    (p.dt = q.dt ∧ p.cd = q.cd ∧ p.atmo = q.atmo ∧ p.windSpeed = q.windSpeed ∧ p.windDir = q.windDir ∧ p.v0 ≠ q.v0 ∧ p.angle = q.angle ∧ p.mass = q.mass ∧ p.area = q.area ∧ p.y0 = q.y0) ∨
    (p.dt = q.dt ∧ p.cd = q.cd ∧ p.atmo = q.atmo ∧ p.windSpeed = q.windSpeed ∧ p.windDir = q.windDir ∧ p.v0 = q.v0 ∧ p.angle ≠ q.angle ∧ p.mass = q.mass ∧ p.area = q.area ∧ p.y0 = q.y0) ∨
    (p.dt = q.dt ∧ p.cd = q.cd ∧ p.atmo = q.atmo ∧ p.windSpeed = q.windSpeed ∧ p.windDir = q.windDir ∧ p.v0 = q.v0 ∧ p.angle = q.angle ∧ p.mass ≠ q.mass ∧ p.area = q.area ∧ p.y0 = q.y0) ∨
    (p.dt = q.dt ∧ p.cd = q.cd ∧ p.atmo = q.atmo ∧ p.windSpeed = q.windSpeed ∧ p.windDir = q.windDir ∧ p.v0 = q.v0 ∧ p.angle = q.angle ∧ p.mass = q.mass ∧ p.area ≠ q.area ∧ p.y0 = q.y0) ∨
    (p.dt = q.dt ∧ p.cd = q.cd ∧ p.atmo = q.atmo ∧ p.windSpeed = q.windSpeed ∧ p.windDir = q.windDir ∧ p.v0 = q.v0 ∧ p.angle = q.angle ∧ p.mass = q.mass ∧ p.area = q.area ∧ p.y0 ≠ q.y0)

/-- C7: the fingerprint is a deterministic function of the ten parameter
fields formatted and concatenated in fixed order: identical tuples
always produce identical fingerprints, and tuples that differ in
exactly one field always produce different fingerprints. -/
theorem fingerprint_deterministic_and_field_sensitive :
    (∀ p q : FingerprintFields, p = q →
      fingerprintOf p = fingerprintOf q) ∧
    (∀ p q : FingerprintFields, DiffersInOneField p q →
      fingerprintOf p ≠ fingerprintOf q) := by
  refine ⟨fun p q h => by rw [h], fun p q hdiff heq => ?_⟩
  simp only [fingerprintOf] at heq
  obtain ⟨e1, e2, e3, e4, e5, e6, e7, e8, e9, e10⟩ := fingerprint_inj heq
  rcases hdiff with h | h | h | h | h | h | h | h | h | h <;> tauto

/-- Concrete fingerprint field tuple used by the witness. -/
def fpA : FingerprintFields := ⟨1, 1, .const, 0, 0, 10, 45, 1, 1, 0⟩

/-- The tuple `fpA` with only the time step changed. -/
def fpB : FingerprintFields := ⟨2, 1, .const, 0, 0, 10, 45, 1, 1, 0⟩

/-- Witness for `fingerprint_deterministic_and_field_sensitive` on two
tuples differing only in `dt`. -/
theorem fingerprint_field_sensitive_witness :
    fingerprintOf fpA = fingerprintOf fpA ∧
    fingerprintOf fpA ≠ fingerprintOf fpB :=
  ⟨fingerprint_deterministic_and_field_sensitive.1 fpA fpA rfl,
   fingerprint_deterministic_and_field_sensitive.2 fpA fpB
     (Or.inl ⟨by decide, rfl, rfl, rfl, rfl, rfl, rfl, rfl, rfl, rfl⟩)⟩

/-- C8: from every reachable non-animating state, `clearAll()` empties
the trajectory collection and the fingerprint set and resets the color
counter together; afterwards the listing is empty, and re-running an
input set whose fingerprint was stored (hence previously rejected as a
duplicate) is accepted and assigned the palette color at index 0. -/
theorem clear_resets (st : StoreState) (inp : Inputs) (d : ℚ)
    (hreach : Reachable st) (hrun : st.isRunning = false)
    (hdt : inp.dt = some d) (hd : 0 < d)
    (hdup : inputKey d inp ∈ st.computedKeys) :
    (clearAll st).trajectories = [] ∧
    (clearAll st).computedKeys = [] ∧
    (clearAll st).colorIdx = 0 ∧
    (simulate (clearAll st) inp).2 =
      SimOutcome.accepted (COLORS.getD 0 "") ∧
    (simulate (clearAll st) inp).1.trajectories.length = 1 := by
  have hcl : clearAll st =
      { st with trajectories := [], colorIdx := 0, computedKeys := [] } := by
    simp [clearAll, hrun]
  rw [hcl]
  have h := @simulate_accepted_parts
    { st with trajectories := [], colorIdx := 0, computedKeys := [] }
    inp d hrun hdt (not_le.mpr hd)
    (by simp) (by simp [MAX_TRAJ])
  exact ⟨rfl, rfl, rfl, h.1, h.2.1⟩

/-- Witness for `clear_resets` on the one-entry store whose key matches
the base inputs. -/
theorem clear_resets_witness :
    (clearAll st1).trajectories = [] ∧
    (clearAll st1).computedKeys = [] ∧
    (clearAll st1).colorIdx = 0 ∧
    (simulate (clearAll st1) inpBase).2 =
      SimOutcome.accepted (COLORS.getD 0 "") ∧
    (simulate (clearAll st1) inpBase).1.trajectories.length = 1 :=
  clear_resets st1 inpBase 1 (reachable_simRound inpBase Reachable.init)
    rfl rfl (by norm_num) (by decide)

/-- Input set number `k` of the capacity scenario: the base parameters
with initial height `k`, so all the fingerprints are pairwise
distinct. -/
def inpK (k : ℕ) : Inputs := { inpBase with y0 := k }

/-- The store after 20 rounds with the 20 distinct input sets
`inpK 0, ..., inpK 19`. -/
noncomputable def st20 : StoreState :=
  ((List.range 20).map inpK).foldl simRound initState

set_option maxRecDepth 200000 in
/-- C4: the store never holds more than `MAX_TRAJ = 20` trajectories in
any reachable state; a non-duplicate insert attempted when the store is
full is rejected as a capacity error with the whole state (trajectories,
fingerprint set, color counter) unchanged; and in the concrete scenario
of 21 distinct-fingerprint inserts into the empty store, the first 20
fill the store and the 21st returns `capacity` leaving it untouched. -/
theorem store_capacity_invariant :
    (∀ st : StoreState, Reachable st →
      st.trajectories.length ≤ MAX_TRAJ) ∧
    (∀ (st : StoreState) (inp : Inputs) (d : ℚ), st.isRunning = false →
      inp.dt = some d → 0 < d → inputKey d inp ∉ st.computedKeys →
      MAX_TRAJ ≤ st.trajectories.length →
      simulate st inp = (st, SimOutcome.capacity)) ∧
    (Reachable st20 ∧ st20.trajectories.length = MAX_TRAJ ∧
      simulate st20 (inpK 20) = (st20, SimOutcome.capacity)) := by
  refine ⟨fun st hr => (reachable_storeInv hr).1,
    fun st inp d hrun hdt hd hkey hcap =>
      simulate_eq_capacity hrun hdt (not_le.mpr hd) hkey hcap,
    reachable_foldl _ Reachable.init, ?_, ?_⟩
  · decide
  · rfl

set_option maxRecDepth 200000 in
/-- Witness for `store_capacity_invariant`: the empty store is within
capacity, and the 21st distinct insert into the full 20-entry store is
rejected as a capacity error with the state unchanged. -/
theorem store_capacity_invariant_witness :
    initState.trajectories.length ≤ MAX_TRAJ ∧
    simulate st20 (inpK 20) = (st20, SimOutcome.capacity) :=
  ⟨store_capacity_invariant.1 initState Reachable.init,
   store_capacity_invariant.2.1 st20 (inpK 20) 1 rfl rfl (by norm_num)
     (by decide) (by decide)⟩
